import Mathlib

/-!
Verification of the table-extraction pipeline of the Financial-Statement-Extractor
repository: a shallow embedding of the Python modules bank_statement_modules/ai_core.py,
bank_statement_modules/ai_functions.py, bank_statement_modules/table_utils.py,
bank_statement_modules/utils.py and vlm_extractor.py, with theorems settling the
specification claims about them.

Conventions of the embedding:
* Python strings are Lean String / List Char; case conversion is ASCII, matching the
  inputs the pipeline handles.
* Python floats and JSON numbers are modelled as rationals; the non-finite literals
  that Python would accept (inf, nan) are outside the model and count as parse failures.
* A call to an external AI model is modelled by its outcome: an Except value carrying
  either the raised exception's message or the returned text.
* Recursions that walk a shrinking string carry an explicit fuel argument, always
  invoked with fuel at least the length of the input, so every definition is executable.
-/

set_option maxRecDepth 10000

/-- Whitespace characters of Python str.strip and of the regex class backslash-s
(ASCII fragment; the pipeline's inputs are ASCII). -/
def pyWs (c : Char) : Bool :=
  c = ' ' || c = '\t' || c = '\n' || c = '\r' || c = '\x0b' || c = '\x0c'

/-- Python str.strip on a character list. -/
def pyStripL (l : List Char) : List Char :=
  ((l.dropWhile pyWs).reverse.dropWhile pyWs).reverse

/-- Python str.strip. -/
def pyStrip (s : String) : String := String.mk (pyStripL s.data)

/-- Python str.upper (ASCII). -/
def pyUpper (s : String) : String := String.mk (s.data.map Char.toUpper)

/-- Python str.lower (ASCII). -/
def pyLower (s : String) : String := String.mk (s.data.map Char.toLower)

/-- Substring test: does the needle occur contiguously in the haystack
(re.search of a literal pattern). -/
def containsSub (needle : List Char) : List Char → Bool
  | [] => needle.isEmpty
  | c :: rest => needle.isPrefixOf (c :: rest) || containsSub needle rest

/-- Search for the regex a.*b where the dot does not match a newline: an occurrence
of a followed, before the next newline, by an occurrence of b. -/
def matchDotStar (a b : List Char) : List Char → Bool
  | [] => false
  | c :: rest =>
      (a.isPrefixOf (c :: rest) &&
        containsSub b (((c :: rest).drop a.length).takeWhile (fun ch => !(ch == '\n')))) ||
      matchDotStar a b rest

/-- Parsed JSON values, the result type of the model of json.loads. Objects keep
their fields in source order; numbers are rationals. -/
inductive Json where
  | null : Json
  | bool : Bool → Json
  | num : ℚ → Json
  | str : String → Json
  | arr : List Json → Json
  | obj : List (String × Json) → Json

mutual

/-- Structural equality on JSON values, the model of Python == between two values
returned by json.loads. (Python's cross-type numeric equalities such as True == 1
do not arise for the values this pipeline compares.) -/
def Json.beq : Json → Json → Bool
  | .null, .null => true
  | .bool a, .bool b => a == b
  | .num a, .num b => a == b
  | .str a, .str b => a == b
  | .arr a, .arr b => Json.beqList a b
  | .obj a, .obj b => Json.beqFields a b
  | _, _ => false

def Json.beqList : List Json → List Json → Bool
  | [], [] => true
  | x :: xs, y :: ys => Json.beq x y && Json.beqList xs ys
  | _, _ => false

def Json.beqFields : List (String × Json) → List (String × Json) → Bool
  | [], [] => true
  | (k1, v1) :: xs, (k2, v2) :: ys => k1 == k2 && Json.beq v1 v2 && Json.beqFields xs ys
  | _, _ => false

end

/-- Whitespace accepted between tokens by json.loads. -/
def jsonWs (c : Char) : Bool := c = ' ' || c = '\t' || c = '\n' || c = '\r'

/-- Skip inter-token whitespace. -/
def skipWsJ (l : List Char) : List Char := l.dropWhile jsonWs

/-- Value of a list of decimal digit characters. -/
def digitsToNat (l : List Char) : Nat := l.foldl (fun a c => a * 10 + (c.toNat - 48)) 0

/-- Hexadecimal digit value, for the backslash-u escape. -/
def hexVal (c : Char) : Option Nat :=
  if c.isDigit then some (c.toNat - 48)
  else if 'a' ≤ c && c ≤ 'f' then some (c.toNat - 87)
  else if 'A' ≤ c && c ≤ 'F' then some (c.toNat - 55)
  else none

/-- Single-character escapes of a JSON string body. -/
def escMap (c : Char) : Option Char :=
  if c = '"' then some '"'
  else if c = '\\' then some '\\'
  else if c = '/' then some '/'
  else if c = 'b' then some '\x08'
  else if c = 'f' then some '\x0c'
  else if c = 'n' then some '\n'
  else if c = 'r' then some '\r'
  else if c = 't' then some '\t'
  else none

/-- Parse the body of a JSON string after the opening quote, returning the decoded
characters and the remainder after the closing quote. Literal control characters are
rejected, as json.loads does in strict mode. A backslash-u escape becomes the scalar
of its code where one exists (a detail invisible to parse success, which is all the
pipeline observes). -/
def parseStringBody (l : List Char) : Option (List Char × List Char) :=
  match l with
  | [] => none
  | '"' :: rest => some ([], rest)
  | '\\' :: 'u' :: h1 :: h2 :: h3 :: h4 :: rest =>
      match hexVal h1, hexVal h2, hexVal h3, hexVal h4 with
      | some a, some b, some c, some d =>
          match parseStringBody rest with
          | some (cs, r) => some (Char.ofNat (((a * 16 + b) * 16 + c) * 16 + d) :: cs, r)
          | none => none
      | _, _, _, _ => none
  | '\\' :: e :: rest =>
      if e = 'u' then none
      else
        match escMap e with
        | some c =>
            match parseStringBody rest with
            | some (cs, r) => some (c :: cs, r)
            | none => none
        | none => none
  | c :: rest =>
      if c.toNat < 32 then none
      else
        match parseStringBody rest with
        | some (cs, r) => some (c :: cs, r)
        | none => none

/-- Parse a JSON number (the grammar of the json module: optional minus, an integer
part with no leading zero, optional fraction, optional exponent), returning its
rational value and the remainder. -/
def parseNumber (l : List Char) : Option (ℚ × List Char) :=
  let signRes : ℚ × List Char := match l with
    | '-' :: r => (-1, r)
    | _ => (1, l)
  let sgn := signRes.1
  let l1 := signRes.2
  match l1 with
  | [] => none
  | c :: r =>
      if c = '0' ∨ (c.isDigit ∧ c ≠ '0') then
        let intDigits := if c = '0' then [c] else c :: r.takeWhile Char.isDigit
        let r1 := if c = '0' then r else r.dropWhile Char.isDigit
        let fracRes : List Char × List Char := match r1 with
          | '.' :: d :: fr =>
              if d.isDigit then (d :: fr.takeWhile Char.isDigit, fr.dropWhile Char.isDigit)
              else ([], r1)
          | _ => ([], r1)
        let fracDigits := fracRes.1
        let r2 := fracRes.2
        let expRes : Option (Int × List Char) := match r2 with
          | e :: er =>
              if e = 'e' ∨ e = 'E' then
                match er with
                | '+' :: d :: dr =>
                    if d.isDigit then
                      some ((digitsToNat (d :: dr.takeWhile Char.isDigit) : Int),
                            dr.dropWhile Char.isDigit)
                    else none
                | '-' :: d :: dr =>
                    if d.isDigit then
                      some (-(digitsToNat (d :: dr.takeWhile Char.isDigit) : Int),
                            dr.dropWhile Char.isDigit)
                    else none
                | d :: dr =>
                    if d.isDigit then
                      some ((digitsToNat (d :: dr.takeWhile Char.isDigit) : Int),
                            dr.dropWhile Char.isDigit)
                    else none
                | [] => none
              else some (0, r2)
          | [] => some (0, r2)
        match expRes with
        | none =>
            -- an e with no digits after it: the number token ends before the e
            let mant : ℚ := (digitsToNat (intDigits ++ fracDigits) : ℚ)
            some (sgn * mant * (10 : ℚ) ^ (-(fracDigits.length : Int)), r2)
        | some (ex, r3) =>
            let mant : ℚ := (digitsToNat (intDigits ++ fracDigits) : ℚ)
            some (sgn * mant * (10 : ℚ) ^ (ex - (fracDigits.length : Int)), r3)
      else none

mutual

/-- Parse one JSON value, fuel-bounded; the model of the value grammar of json.loads
(without the non-finite extensions, see the header). -/
def parseVal : Nat → List Char → Option (Json × List Char)
  | 0, _ => none
  | Nat.succ f, l =>
      match skipWsJ l with
      | [] => none
      | '\x7b' :: r =>
          match skipWsJ r with
          | '\x7d' :: r2 => some (Json.obj [], r2)
          | r2 =>
              match parseObjItems f r2 with
              | some (fs, r3) => some (Json.obj fs, r3)
              | none => none
      | '[' :: r =>
          match skipWsJ r with
          | ']' :: r2 => some (Json.arr [], r2)
          | r2 =>
              match parseArrItems f r2 with
              | some (vs, r3) => some (Json.arr vs, r3)
              | none => none
      | '"' :: r =>
          match parseStringBody r with
          | some (cs, r2) => some (Json.str (String.mk cs), r2)
          | none => none
      | 't' :: 'r' :: 'u' :: 'e' :: r => some (Json.bool true, r)
      | 'f' :: 'a' :: 'l' :: 's' :: 'e' :: r => some (Json.bool false, r)
      | 'n' :: 'u' :: 'l' :: 'l' :: r => some (Json.null, r)
      | l2 =>
          match parseNumber l2 with
          | some (q, r) => some (Json.num q, r)
          | none => none

/-- Parse the members of an object after its opening brace, the next token being a key. -/
def parseObjItems : Nat → List Char → Option (List (String × Json) × List Char)
  | 0, _ => none
  | Nat.succ f, l =>
      match skipWsJ l with
      | '"' :: r =>
          match parseStringBody r with
          | some (kcs, r2) =>
              match skipWsJ r2 with
              | ':' :: r3 =>
                  match parseVal f r3 with
                  | some (v, r4) =>
                      match skipWsJ r4 with
                      | '\x7d' :: r5 => some ([(String.mk kcs, v)], r5)
                      | ',' :: r5 =>
                          match parseObjItems f r5 with
                          | some (fs, r6) => some ((String.mk kcs, v) :: fs, r6)
                          | none => none
                      | _ => none
                  | none => none
              | _ => none
          | none => none
      | _ => none

/-- Parse the elements of an array after its opening bracket, the next token being a value. -/
def parseArrItems : Nat → List Char → Option (List Json × List Char)
  | 0, _ => none
  | Nat.succ f, l =>
      match parseVal f l with
      | some (v, r) =>
          match skipWsJ r with
          | ']' :: r2 => some ([v], r2)
          | ',' :: r2 =>
              match parseArrItems f r2 with
              | some (vs, r3) => some (v :: vs, r3)
              | none => none
          | _ => none
      | none => none

end

/-- Model of json.loads: parse a complete document, rejecting trailing data. -/
def jsonParse (s : String) : Option Json :=
  match parseVal (4 * s.data.length + 8) s.data with
  | some (v, rest) => if (skipWsJ rest).isEmpty then some v else none
  | none => none

/-- Does the text parse as JSON at all (json.loads succeeds)? -/
def jsonParses (s : String) : Bool := (jsonParse s).isSome

/-- Does the text parse as a JSON array? -/
def parsesAsJsonArray (s : String) : Bool :=
  match jsonParse s with
  | some (Json.arr _) => true
  | _ => false

/-- The fixed default schema template of bank_statement_modules/config.py. -/
def DEFAULT_SCHEMA : String :=
  "[\x7b\"dt\":\"DD-MM-YYYY\",\"desc\":\"COMPLETE_EXACT_DESCRIPTION\",\"ref\":null,\"dr\":0.00,\"cr\":0.00,\"bal\":0.00,\"type\":\"W\"\x7d]"

/-- Model of re.search for a bracketed array with DOTALL (the pattern used by both
clean_and_fix_json and detect_schema_from_first_table in ai_core): the substring
from the first opening bracket preceding the last closing bracket up to that
closing bracket, when such a pair exists. -/
def extractBrack (l : List Char) : Option (List Char) :=
  let m := (l.reverse.dropWhile (fun c => !(c == ']'))).reverse
  let c := m.dropWhile (fun c => !(c == '['))
  if c.isEmpty then none else some c

/-- Drop a case-insensitive json word at the head of the list, if present. -/
def dropJsonCI (l : List Char) : List Char :=
  match l with
  | a :: b :: c :: d :: rest =>
      if a.toLower = 'j' ∧ b.toLower = 's' ∧ c.toLower = 'o' ∧ d.toLower = 'n' then rest
      else l
  | _ => l

/-- Model of the fence-stripping re.sub of ai_core.clean_and_fix_json: each triple
backtick, an optional case-insensitive json word and the following whitespace are
deleted, scanning left to right. -/
def removeFenceCore : Nat → List Char → List Char
  | 0, l => l
  | Nat.succ f, l =>
      match l with
      | '\x60' :: '\x60' :: '\x60' :: rest => removeFenceCore f ((dropJsonCI rest).dropWhile pyWs)
      | c :: rest => c :: removeFenceCore f rest
      | [] => []

/-- Model of str.replace deleting every remaining triple backtick. -/
def removeTriple : Nat → List Char → List Char
  | 0, l => l
  | Nat.succ f, l =>
      match l with
      | '\x60' :: '\x60' :: '\x60' :: rest => removeTriple f rest
      | c :: rest => c :: removeTriple f rest
      | [] => []

/-- Model of re.sub replacing a comma, optional whitespace and the given closing
character by the closing character alone (the trailing-comma fixes). -/
def commaFix (close : Char) : Nat → List Char → List Char
  | 0, l => l
  | Nat.succ f, l =>
      match l with
      | ',' :: rest =>
          match rest.dropWhile pyWs with
          | c :: rest2 =>
              if c = close then close :: commaFix close f rest2
              else ',' :: commaFix close f rest
          | [] => ',' :: commaFix close f rest
      | c :: rest => c :: commaFix close f rest
      | [] => []

/-- Model of str.replace turning each literal backslash-n pair into a space. -/
def replaceBackslashN : Nat → List Char → List Char
  | 0, l => l
  | Nat.succ f, l =>
      match l with
      | '\\' :: 'n' :: rest => ' ' :: replaceBackslashN f rest
      | c :: rest => c :: replaceBackslashN f rest
      | [] => []

/-- Model of re.findall collecting the brace-delimited blocks that contain no
nested braces, scanning left to right. -/
def braceBlocks : Nat → List Char → List (List Char)
  | 0, _ => []
  | Nat.succ f, l =>
      match l with
      | '\x7b' :: rest =>
          let inner := rest.takeWhile (fun c => !(c == '\x7b') && !(c == '\x7d'))
          match rest.dropWhile (fun c => !(c == '\x7b') && !(c == '\x7d')) with
          | '\x7d' :: rest2 => ('\x7b' :: (inner ++ ['\x7d'])) :: braceBlocks f rest2
          | rest2 => braceBlocks f rest2
      | _ :: rest => braceBlocks f rest
      | [] => []

/-- Join character-list blocks with commas (str.join). -/
def joinComma : List (List Char) → List Char
  | [] => []
  | [b] => b
  | b :: rest => b ++ ',' :: joinComma rest

/-- Final parse attempts of ai_core.clean_and_fix_json: keep the candidate if it
parses, otherwise retry with single quotes turned into double quotes and the
trailing-comma fix reapplied, otherwise give up with the empty-array text. -/
def finishClean (candidate : List Char) : String :=
  let candStr := String.mk candidate
  if jsonParses candStr then candStr
  else
    let alt := candidate.map (fun ch => if ch = Char.ofNat 39 then '"' else ch)
    let alt := commaFix ']' (alt.length + 1) alt
    let altStr := String.mk alt
    if jsonParses altStr then altStr else "[]"

/-- Model of ai_core.clean_and_fix_json: sanitize model output toward a JSON array
string. Empty or whitespace input short-circuits to the empty-array text; otherwise
fences are stripped, the first bracketed array is extracted (falling back to
collecting brace blocks, then to the text itself), trailing commas, literal
backslash-n pairs and backslashes are removed, and the result is kept only if it
parses, with the quote-swap retry and the empty-array fallback otherwise. -/
def ai_core.clean_and_fix_json (raw : String) : String :=
  if raw = "" ∨ pyStrip raw = "" then "[]"
  else
    let txt := pyStripL raw.data
    let txt := removeTriple (txt.length + 1) (removeFenceCore (txt.length + 1) txt)
    let candidate :=
      match extractBrack txt with
      | some c => c
      | none =>
          match braceBlocks (txt.length + 1) txt with
          | [] => txt
          | objs => '[' :: (joinComma objs ++ [']'])
    let candidate := commaFix ']' (candidate.length + 1) candidate
    let candidate := commaFix '\x7d' (candidate.length + 1) candidate
    let candidate := replaceBackslashN (candidate.length + 1) candidate
    let candidate := candidate.filter (fun c => !(c == '\\'))
    finishClean candidate

/-- Model of the first re.sub of ai_functions.clean_and_fix_json: delete each
triple backtick followed by optional whitespace and the word json (case-sensitive
in this variant). -/
def removeFenceJson : Nat → List Char → List Char
  | 0, l => l
  | Nat.succ f, l =>
      match l with
      | '\x60' :: '\x60' :: '\x60' :: rest =>
          let after := rest.dropWhile pyWs
          if ['j', 's', 'o', 'n'].isPrefixOf after then removeFenceJson f (after.drop 4)
          else '\x60' :: removeFenceJson f ('\x60' :: '\x60' :: rest)
      | c :: rest => c :: removeFenceJson f rest
      | [] => []

/-- Model of the bracket slice of ai_functions.clean_and_fix_json: when both an
opening and a closing bracket occur, keep the Python slice from the first opening
bracket to the last closing bracket (empty when they are crossed). -/
def bracketSlice (l : List Char) : List Char :=
  let start := (l.takeWhile (fun c => !(c == '['))).length
  let rtail := (l.reverse.takeWhile (fun c => !(c == ']'))).length
  if start = l.length ∨ rtail = l.length then l
  else (l.take (l.length - rtail)).drop start

/-- Collapse each whitespace run to a single space (re.sub of the regex class
backslash-s-plus). -/
def collapseWs : Nat → List Char → List Char
  | 0, l => l
  | Nat.succ f, l =>
      match l with
      | c :: rest =>
          if pyWs c then ' ' :: collapseWs f (rest.dropWhile pyWs)
          else c :: collapseWs f rest
      | [] => []

/-- Model of the quoted-content rewrite of ai_functions.clean_and_fix_json: each
quote-delimited run has its content stripped and its whitespace runs collapsed;
an unmatched trailing quote is left verbatim. -/
def fixStrings : Nat → List Char → List Char
  | 0, l => l
  | Nat.succ f, l =>
      match l with
      | '"' :: rest =>
          let content := rest.takeWhile (fun c => !(c == '"'))
          match rest.dropWhile (fun c => !(c == '"')) with
          | '"' :: rest2 =>
              let fixed := collapseWs (content.length + 1) (pyStripL content)
              '"' :: (fixed ++ '"' :: fixStrings f rest2)
          | _ => '"' :: rest
      | c :: rest => c :: fixStrings f rest
      | [] => []

/-- Model of ai_functions.clean_and_fix_json: strip fence markers, slice from the
first opening to the last closing bracket, remove trailing commas, and normalise
whitespace inside quoted strings. This variant performs no parse validation. -/
def ai_functions.clean_and_fix_json (raw : String) : String :=
  let txt := raw.data
  let txt := removeTriple (txt.length + 1) (removeFenceJson (txt.length + 1) txt)
  let txt := bracketSlice txt
  let txt := commaFix '\x7d' (txt.length + 1) txt
  let txt := commaFix ']' (txt.length + 1) txt
  String.mk (fixStrings (txt.length + 1) txt)

/-- Model of ai_core.is_transaction_table, the AI classification call: true exactly
when the stripped upper-cased reply is YES, and fail-open to true when the call
raises (ai_functions.is_transaction_table is textually identical). -/
def ai_core.is_transaction_table (resp : Except String String) : Bool :=
  match resp with
  | .error _ => true
  | .ok content => pyUpper (pyStrip content) == "YES"

/-- Model of ai_core.detect_schema_from_first_table: extract the first bracketed
array from the stripped reply, keep it stripped if it is valid JSON, and fall back
to the default schema on a missing array, invalid JSON, or a raised exception. -/
def ai_core.detect_schema_from_first_table (resp : Except String String) : String :=
  match resp with
  | .error _ => DEFAULT_SCHEMA
  | .ok content =>
      match extractBrack (pyStripL content.data) with
      | some c =>
          let schema := String.mk (pyStripL c)
          if jsonParses schema then schema else DEFAULT_SCHEMA
      | none => DEFAULT_SCHEMA

/-- Model of ai_functions.detect_schema_from_first_table: the stripped reply is
returned as the schema whenever the call succeeds; only a raised exception falls
back to the default template (whose text equals DEFAULT_SCHEMA). -/
def ai_functions.detect_schema_from_first_table (resp : Except String String) : String :=
  match resp with
  | .error _ => DEFAULT_SCHEMA
  | .ok content => pyStrip content

/-- Last binding of a key in a parsed object: the lookup of a Python dict built by
json.loads, where later duplicates override earlier ones. -/
def jlookup : List (String × Json) → String → Option Json
  | [], _ => none
  | (k, v) :: rest, key =>
      match jlookup rest key with
      | some r => some r
      | none => if k = key then some v else none

/-- Python dict.get with default None on a parsed object. -/
def pyGet (fs : List (String × Json)) (k : String) : Json :=
  (jlookup fs k).getD Json.null

/-- One pair of the corrections-logging loop of refine_with_camelot_reference_simple:
the pair is processed without raising exactly when both records are dicts and, when
the dr or cr values differ, the corrected desc value is sliceable (a string, a list,
or absent so that the default string is used); any other shape raises, which makes
the whole refinement fall back to the original records. -/
def refinePairOk (o c : Json) : Bool :=
  match o, c with
  | .obj ofs, .obj cfs =>
      if Json.beq (pyGet ofs "dr") (pyGet cfs "dr") &&
         Json.beq (pyGet ofs "cr") (pyGet cfs "cr") then true
      else
        match jlookup cfs "desc" with
        | none => true
        | some (.str _) => true
        | some (.arr _) => true
        | some _ => false
  | _, _ => false

/-- Model of ai_functions.refine_with_camelot_reference_simple: with non-empty
records and reference, the model reply is sanitised and parsed; the parse is
accepted only when it is a list of exactly the input length and the logging loop
does not raise, in which case it replaces the records wholesale; every other
outcome (raised call, parse failure, non-list, length mismatch, loop exception)
returns the original records. The reference rows enter only the prompt, so only
their emptiness is observable here. -/
def refine_with_camelot_reference_simple
    (llm : List Json) (camelot : List (List String)) (resp : Except String String) :
    List Json :=
  if llm.isEmpty || camelot.isEmpty then llm
  else
    match resp with
    | .error _ => llm
    | .ok text =>
        match jsonParse (ai_functions.clean_and_fix_json (pyStrip text)) with
        | some (Json.arr xs) =>
            if xs.length = llm.length then
              if (llm.zip xs).all (fun p => refinePairOk p.1 p.2) then xs else llm
            else llm
        | _ => llm

/-- Model of ai_core.refine_with_camelot_reference: same gating, but the parsed
reply replaces the records whenever it is a list of any length; only a raised
call, a parse failure or a non-list reply falls back to the original records. -/
def refine_with_camelot_reference
    (llm : List Json) (camelot : List (List String)) (resp : Except String String) :
    List Json :=
  if llm.isEmpty || camelot.isEmpty then llm
  else
    match resp with
    | .error _ => llm
    | .ok text =>
        match jsonParse (ai_core.clean_and_fix_json (pyStrip text)) with
        | some (Json.arr xs) => xs
        | _ => llm

/-- Model of Python float() on a string: optional surrounding whitespace, an
optional sign, digits with an optional decimal point, and an optional exponent.
The non-finite words and digit-group underscores Python would also accept are
outside the model (no claim exercises them). -/
def pyFloatOfString (s : String) : Option ℚ :=
  let l := pyStripL s.data
  let signRes : ℚ × List Char :=
    match l with
    | '+' :: r => (1, r)
    | '-' :: r => (-1, r)
    | _ => (1, l)
  let sgn := signRes.1
  let l1 := signRes.2
  let intDigits := l1.takeWhile Char.isDigit
  let r1 := l1.dropWhile Char.isDigit
  let fracRes : List Char × List Char :=
    match r1 with
    | '.' :: fr => (fr.takeWhile Char.isDigit, fr.dropWhile Char.isDigit)
    | _ => ([], r1)
  let fracDigits := fracRes.1
  let r2 := fracRes.2
  if intDigits.isEmpty ∧ fracDigits.isEmpty then none
  else
    let expRes : Option (Int × List Char) :=
      match r2 with
      | e :: er =>
          if e = 'e' ∨ e = 'E' then
            let signExpRes : Int × List Char :=
              match er with
              | '+' :: r => (1, r)
              | '-' :: r => (-1, r)
              | _ => (1, er)
            let ds := signExpRes.2.takeWhile Char.isDigit
            if ds.isEmpty then none
            else some (signExpRes.1 * (digitsToNat ds : Int), signExpRes.2.dropWhile Char.isDigit)
          else some (0, r2)
      | [] => some (0, r2)
    match expRes with
    | some (ex, r3) =>
        if r3.isEmpty then
          some (sgn * (digitsToNat (intDigits ++ fracDigits) : ℚ) *
                (10 : ℚ) ^ (ex - (fracDigits.length : Int)))
        else none
    | none => none

/-- Model of Python float() applied to a parsed JSON value. -/
def pyFloat : Json → Except String ℚ
  | .num q => .ok q
  | .bool b => .ok (if b then 1 else 0)
  | .str s =>
      match pyFloatOfString s with
      | some q => .ok q
      | none => .error "ValueError"
  | .null => .error "TypeError"
  | .arr _ => .error "TypeError"
  | .obj _ => .error "TypeError"

/-- Model of utils.expand_compact_json on one record: build the display record,
defaulting a missing numeric field to zero and propagating the exception float()
raises on a malformed value; a non-dict record raises on attribute access. -/
def expand_compact_json_one (t : Json) : Except String Json :=
  match t with
  | .obj fs => do
      let dr ← pyFloat ((jlookup fs "dr").getD (Json.num 0))
      let cr ← pyFloat ((jlookup fs "cr").getD (Json.num 0))
      let bal ← pyFloat ((jlookup fs "bal").getD (Json.num 0))
      .ok (Json.obj
        [("date", pyGet fs "dt"),
         ("narration", pyGet fs "desc"),
         ("reference_number", pyGet fs "ref"),
         ("withdrawal_dr", Json.num dr),
         ("deposit_cr", Json.num cr),
         ("balance", Json.num bal),
         ("transaction_type", Json.str
            (match jlookup fs "type" with
             | some (.str s) => if s = "W" then "Withdrawal" else "Deposit"
             | _ => "Deposit"))])
  | _ => .error "AttributeError"

/-- Model of utils.expand_compact_json: expand every record in order; the first
record that raises aborts the whole call with that exception. -/
def expand_compact_json (ts : List Json) : Except String (List Json) :=
  ts.mapM expand_compact_json_one

/-- A bounding box in PDF page space: x1, y1, x2, y2 as rationals. -/
abbrev Box := ℚ × ℚ × ℚ × ℚ

/-- Model of SimplifiedTableExtractor.merge_boxes: the coordinate-wise union. -/
def merge_boxes (b1 b2 : Box) : Box :=
  (min b1.1 b2.1, min b1.2.1 b2.2.1, max b1.2.2.1 b2.2.2.1, max b1.2.2.2 b2.2.2.2)

/-- Model of SimplifiedTableExtractor.boxes_overlap: false on an empty
intersection, otherwise whether the intersection area divided by the smaller box
area exceeds the threshold (default three tenths). -/
def boxes_overlap (b1 b2 : Box) (threshold : ℚ := 3 / 10) : Bool :=
  let ix1 := max b1.1 b2.1
  let iy1 := max b1.2.1 b2.2.1
  let ix2 := min b1.2.2.1 b2.2.2.1
  let iy2 := min b1.2.2.2 b2.2.2.2
  if ix1 ≥ ix2 ∨ iy1 ≥ iy2 then false
  else
    let interA := (ix2 - ix1) * (iy2 - iy1)
    let area1 := (b1.2.2.1 - b1.1) * (b1.2.2.2 - b1.2.1)
    let area2 := (b2.2.2.1 - b2.1) * (b2.2.2.2 - b2.2.1)
    decide (interA / min area1 area2 > threshold)

/-- Nondeterministic single-pattern matcher: the possible remainders after one
match at the head of the input. -/
abbrev CMatch := List Char → List (List Char)

/-- Match one character satisfying the predicate. -/
def mChar (p : Char → Bool) : CMatch := fun l =>
  match l with
  | c :: r => if p c then [r] else []
  | [] => []

/-- Concatenation of the images of a list under a list-valued map. -/
def joinMap (f : α → List β) : List α → List β
  | [] => []
  | a :: r => f a ++ joinMap f r

/-- Sequential composition of matchers. -/
def mSeq (m1 m2 : CMatch) : CMatch := fun l => joinMap m2 (m1 l)

/-- Sequential composition of a list of matchers. -/
def mSeqs : List CMatch → CMatch
  | [] => fun l => [l]
  | m :: r => mSeq m (mSeqs r)

/-- Exactly n repetitions. -/
def mRepExact (m : CMatch) : Nat → CMatch
  | 0 => fun l => [l]
  | Nat.succ n => mSeq m (mRepExact m n)

/-- Between lo and hi repetitions. -/
def mRepRange (m : CMatch) (lo hi : Nat) : CMatch := fun l =>
  joinMap (fun k => mRepExact m (lo + k) l) (List.range (hi + 1 - lo))

/-- Zero or one occurrence. -/
def mOpt (m : CMatch) : CMatch := fun l => l :: m l

/-- Zero or more characters satisfying the predicate (all split points of the run). -/
def mStarCh (p : Char → Bool) : List Char → List (List Char)
  | [] => [[]]
  | c :: r => if p c then (c :: r) :: mStarCh p r else [c :: r]

/-- One or more characters satisfying the predicate. -/
def mPlusCh (p : Char → Bool) : CMatch := mSeq (mChar p) (mStarCh p)

/-- Does the pattern match at some position (re.search)? -/
def searchM (m : CMatch) : List Char → Bool
  | [] => !(m []).isEmpty
  | c :: r => !(m (c :: r)).isEmpty || searchM m r

/-- A decimal digit. -/
def mDigit : CMatch := mChar Char.isDigit

/-- A dash or slash separator. -/
def mDash : CMatch := mChar (fun c => c == '-' || c == '/')

/-- A word character of the regex class (ASCII). -/
def mWord : CMatch := mChar (fun c => c.isAlphanum || c == '_')

/-- First date pattern of SimplifiedTableExtractor: one or two digits, dash or
slash, one or two digits, dash or slash, two to four digits. -/
def datePat1 : CMatch :=
  mSeqs [mRepRange mDigit 1 2, mDash, mRepRange mDigit 1 2, mDash, mRepRange mDigit 2 4]

/-- Second date pattern: one or two digits, whitespace, a three-letter word,
optional whitespace, an optional comma, whitespace, four digits. -/
def datePat2 : CMatch :=
  mSeqs [mRepRange mDigit 1 2, mPlusCh pyWs, mRepExact mWord 3, mStarCh pyWs,
         mOpt (mChar (fun c => c == ',')), mPlusCh pyWs, mRepExact mDigit 4]

/-- Third date pattern: one or two digits, dash, a three-letter word, dash, two to
four digits. -/
def datePat3 : CMatch :=
  mSeqs [mRepRange mDigit 1 2, mChar (fun c => c == '-'), mRepExact mWord 3,
         mChar (fun c => c == '-'), mRepRange mDigit 2 4]

/-- Fourth date pattern: four digits, dash or slash, one or two digits, dash or
slash, one or two digits. -/
def datePat4 : CMatch :=
  mSeqs [mRepExact mDigit 4, mDash, mRepRange mDigit 1 2, mDash, mRepRange mDigit 1 2]

/-- Model of SimplifiedTableExtractor.is_date_like (table_utils variant): empty and
nan-like values are rejected, otherwise any of the four date patterns may occur
anywhere in the value. -/
def SimplifiedTableExtractor.is_date_like (value : String) : Bool :=
  if value = "" || pyLower (pyStrip value) = "" || pyLower (pyStrip value) = "nan" then false
  else
    searchM datePat1 value.data || searchM datePat2 value.data ||
    searchM datePat3 value.data || searchM datePat4 value.data

/-- First header pattern group: date, dt, txn-gap-date or transaction-gap-date. -/
def headerPat1 (t : List Char) : Bool :=
  containsSub "date".data t || containsSub "dt".data t ||
  matchDotStar "txn".data "date".data t ||
  matchDotStar "transaction".data "date".data t

/-- Second header pattern group: balance, bal, amount or amt. -/
def headerPat2 (t : List Char) : Bool :=
  containsSub "balance".data t || containsSub "bal".data t ||
  containsSub "amount".data t || containsSub "amt".data t

/-- Third header pattern group: debit, credit, withdrawal or deposit. -/
def headerPat3 (t : List Char) : Bool :=
  containsSub "debit".data t || containsSub "credit".data t ||
  containsSub "withdrawal".data t || containsSub "deposit".data t

/-- Fourth header pattern group: description, particulars, narration, details or
reference. -/
def headerPat4 (t : List Char) : Bool :=
  containsSub "description".data t || containsSub "particulars".data t ||
  containsSub "narration".data t || containsSub "details".data t ||
  containsSub "reference".data t

/-- Model of SimplifiedTableExtractor.is_header_row: join the non-nan cells,
lower-cased and stripped, and require at least two of the four pattern groups. -/
def SimplifiedTableExtractor.is_header_row (row : List String) : Bool :=
  let cells := (row.filter (fun cell => !(pyStrip cell == "nan"))).map
    (fun cell => pyStrip (pyLower cell))
  let rowText := pyStripL (String.intercalate " " cells).data
  if rowText.isEmpty then false
  else
    (if headerPat1 rowText then 1 else 0) + (if headerPat2 rowText then 1 else 0) +
      (if headerPat3 rowText then 1 else 0) + (if headerPat4 rowText then 1 else 0) ≥ 2

/-- Number of columns: the width of a rectangular DataFrame, read off the first row. -/
def ncols (df : List (List String)) : Nat := (df.headD []).length

/-- Pandas df.empty: no rows or no columns. -/
def dfEmpty (df : List (List String)) : Bool := df.isEmpty || ncols df = 0

/-- Text rendering of the DataFrame for the keyword scan, lower-cased: the cells
joined by spaces and newlines. (pandas to_string also prints the numeric index and
column labels and pads with spaces, which cannot introduce a keyword occurrence;
its truncation of cells beyond fifty characters does not arise for the tables
considered here.) -/
def dfAllTextLower (df : List (List String)) : List Char :=
  (pyLower (String.intercalate "\n" (df.map (fun r => String.intercalate " " r)))).data

/-- The transaction keyword list of SimplifiedTableExtractor. -/
def transaction_keywords : List String :=
  ["debit", "credit", "balance", "withdrawal", "deposit",
   "transfer", "payment", "upi", "imps", "neft", "rtgs"]

/-- Model of the date-column scan of is_transaction_table: walk the first columns
in order; a column whose first ten in-range stripped values number at least two and
include a date-like value establishes the date signal. -/
def dateFoundFrom (df : List (List String)) : Nat → Nat → Bool
  | _, 0 => false
  | col, Nat.succ remaining =>
      let sample := (df.take 10).filterMap
        (fun row => if col < row.length then some (pyStrip (row.getD col "")) else none)
      if sample.length ≥ 2 &&
         (sample.filter SimplifiedTableExtractor.is_date_like).length ≥ 1 then true
      else dateFoundFrom df (col + 1) remaining

/-- Model of SimplifiedTableExtractor.is_transaction_table (table_utils variant):
an empty or single-row frame is never transactional; otherwise require a header row
among the first three rows, or a date-bearing column among the first four, together
with at least one transaction keyword anywhere in the rendered text. -/
def SimplifiedTableExtractor.is_transaction_table (df : List (List String)) : Bool :=
  if dfEmpty df || df.length < 2 then false
  else
    let hasHeaders := (df.take 3).any SimplifiedTableExtractor.is_header_row
    let dateFound := dateFoundFrom df 0 (min 4 (ncols df))
    let allText := dfAllTextLower df
    let keywordCount :=
      (transaction_keywords.filter (fun k => containsSub k.data allText)).length
    (hasHeaders && keywordCount ≥ 1) || (dateFound && keywordCount ≥ 1)

/-- A Camelot table as the merge pass sees it: page number, bounding box and cell
grid (the DataFrame of strings). -/
structure PyTable where
  page : Nat
  bbox : Box
  df : List (List String)
deriving DecidableEq

/-- The absorbing scan of merge_overlapping_tables: walk the remaining tables in
order, absorbing each one that overlaps the growing box and keeping the rest in
order. Returns the grown box and the unabsorbed remainder. -/
def absorb (b : Box) : List PyTable → Box × List PyTable
  | [] => (b, [])
  | t :: ts =>
      if boxes_overlap b t.bbox then absorb (merge_boxes b t.bbox) ts
      else
        let r := absorb b ts
        (r.1, t :: r.2)

/-- One full pass of the used-array loop of merge_overlapping_tables on a single
page: each leading table absorbs the later tables overlapping its growing box. -/
def mergePass : Nat → List PyTable → List PyTable
  | _, [] => []
  | 0, l => l
  | Nat.succ f, t :: ts =>
      let r := absorb t.bbox ts
      { t with bbox := r.1 } :: mergePass f r.2

/-- First-occurrence order of the page keys (insertion order of the Python dict). -/
def keysInOrder : Nat → List Nat → List Nat
  | 0, _ => []
  | _, [] => []
  | Nat.succ f, p :: ps => p :: keysInOrder f (ps.filter (fun q => !(q == p)))

/-- Model of SimplifiedTableExtractor.merge_overlapping_tables: keep the tables the
heuristic classifies as transactional, group them by page in first-appearance
order, and run the absorbing pass within each page. -/
def merge_overlapping_tables (tables : List PyTable) : List PyTable :=
  let retained := tables.filter (fun t => SimplifiedTableExtractor.is_transaction_table t.df)
  let keys := keysInOrder (retained.length + 1) (retained.map (fun t => t.page))
  joinMap (fun p =>
    let pl := retained.filter (fun t => t.page == p)
    mergePass (pl.length + 1) pl) keys

/-- State of the per-table loop of vlm_extractor.process_pdf_extraction. -/
structure ExtractionState where
  found : Bool
  reordered : Option String
  used : List String
  inferCalls : Nat

/-- Python truthiness fallback of the reordered-schema-or-default expression: an
absent or empty schema string falls back to the default. -/
def pyOrStr : Option String → String → String
  | none, d => d
  | some s, d => if s = "" then d else s

/-- One iteration of the table loop of process_pdf_extraction: while no
transactional table has been found, the classifier outcome is consulted and, on
the first positive, schema inference runs once; every iteration then extracts with
the reordered schema if any, else the default. An image is modelled as its
classifier outcome paired with the schema-inference reply it would produce. -/
def stepTable (st : ExtractionState) (img : Bool × Except String String) : ExtractionState :=
  let st2 :=
    if st.found = false ∧ img.1 = true then
      { st with found := true,
                reordered := some (ai_core.detect_schema_from_first_table img.2),
                inferCalls := st.inferCalls + 1 }
    else st
  { st2 with used := st2.used ++ [pyOrStr st2.reordered DEFAULT_SCHEMA] }

/-- The table loop of process_pdf_extraction over a document's cropped images. -/
def processTables (imgs : List (Bool × Except String String)) : ExtractionState :=
  imgs.foldl stepTable ⟨false, none, [], 0⟩

/-- Schedule of schemas the specification prescribes: the default schema before
(and absent) any transactional classification, and from the first transactional
image on, the schema inferred from that image, unchanged for every later table. -/
def specSchemaSchedule : List (Bool × Except String String) → List String
  | [] => []
  | (c, resp) :: rest =>
      if c then
        ai_core.detect_schema_from_first_table resp ::
          rest.map (fun _ => ai_core.detect_schema_from_first_table resp)
      else DEFAULT_SCHEMA :: specSchemaSchedule rest

/-- Rational value of a numeric field of a record, zero when absent or non-numeric
(the reading under which the continuity equation is stated). -/
def recNum (r : Json) (k : String) : ℚ :=
  match r with
  | .obj fs =>
      match jlookup fs k with
      | some (.num q) => q
      | _ => 0
  | _ => 0

/-- The ascending-dates balance-continuity invariant of the specification: each
record's balance equals the previous balance plus credit minus debit, within the
given tolerance. -/
def balanceContinuityAsc (rs : List Json) (tol : ℚ) : Bool :=
  (rs.zip (rs.drop 1)).all fun p =>
    decide (|recNum p.2 "bal" - (recNum p.1 "bal" + recNum p.2 "cr" - recNum p.2 "dr")| ≤ tol)

/-- Area of a box (claim-side definition, stated as the spec words it). -/
def boxArea (b : Box) : ℚ := (b.2.2.1 - b.1) * (b.2.2.2 - b.2.1)

/-- Area of the intersection of two boxes, zero when they do not meet
(claim-side definition). -/
def interArea (b1 b2 : Box) : ℚ :=
  max 0 (min b1.2.2.1 b2.2.2.1 - max b1.1 b2.1) *
    max 0 (min b1.2.2.2 b2.2.2.2 - max b1.2.1 b2.2.1)

/-- Field of a parsed object, none on a non-object (claim-side accessor). -/
def jfield (j : Json) (k : String) : Option Json :=
  match j with
  | .obj fs => jlookup fs k
  | _ => none

/-- Does float() succeed on the numeric field k of the record (the field being
absent counts, since the code then defaults it to zero)? -/
def fieldFloatable (fs : List (String × Json)) (k : String) : Bool :=
  (pyFloat ((jlookup fs k).getD (Json.num 0))).isOk

/-- A compact record the expander processes without raising: a dict whose dr, cr
and bal fields are each absent or accepted by float(). -/
def recWellFormed : Json → Bool
  | .obj fs => fieldFloatable fs "dr" && fieldFloatable fs "cr" && fieldFloatable fs "bal"
  | _ => false

/-- Is the type field of a compact record the string W? -/
def typeIsW : Json → Bool
  | .obj fs =>
      match jlookup fs "type" with
      | some (.str s) => s == "W"
      | _ => false
  | _ => false

/-- The float value the expander stores for the numeric field k: the field's
float() value, with zero for an absent field (claim-side reading; only applied to
records on which float() succeeds). -/
def floatValD (t : Json) (k : String) : ℚ :=
  match t with
  | .obj fs =>
      match pyFloat ((jlookup fs k).getD (Json.num 0)) with
      | .ok q => q
      | .error _ => 0
  | _ => 0

/-- Two extracted records for the reconciliation counterexample. -/
def llmC1 : List Json :=
  [Json.obj [("dt", Json.str "01-01-2024"), ("desc", Json.str "OPEN"), ("ref", Json.null),
             ("dr", Json.num 0), ("cr", Json.num 0), ("bal", Json.num 1000),
             ("type", Json.str "D")],
   Json.obj [("dt", Json.str "02-01-2024"), ("desc", Json.str "SALARY"), ("ref", Json.null),
             ("dr", Json.num 0), ("cr", Json.num 500), ("bal", Json.num 1500),
             ("type", Json.str "D")]]

/-- A reconciliation reply of the right length whose second balance breaks the
continuity equation grossly. -/
def respC1 : Except String String :=
  .ok "[\x7b\"dt\":\"01-01-2024\",\"desc\":\"OPEN\",\"ref\":null,\"dr\":0,\"cr\":0,\"bal\":1000,\"type\":\"D\"\x7d,\x7b\"dt\":\"02-01-2024\",\"desc\":\"SALARY\",\"ref\":null,\"dr\":0,\"cr\":500,\"bal\":9999,\"type\":\"D\"\x7d]"

/-- Two extracted records for the length-mismatch counterexample. -/
def llmC3 : List Json := [Json.obj [("dt", Json.str "a")], Json.obj [("dt", Json.str "b")]]

/-- A one-record input for the accepted-correction witness. -/
def llmW1 : List Json := [Json.obj [("dr", Json.num 1)]]

/-- A reply the simple refiner accepts, changing the dr value. -/
def respW1 : Except String String := .ok "[\x7b\"dr\":2\x7d]"

/-- A two-row grid the transaction-table heuristic retains (a date column and the
debit keyword). -/
def dfT : List (List String) := [["01-01-2024", "debit"], ["02-01-2024", "100"]]

/-- Candidate table A of the merge counterexample. -/
def tA : PyTable := ⟨1, (0, 0, 10, 10), dfT⟩

/-- Candidate table B of the merge counterexample: disjoint from A. -/
def tB : PyTable := ⟨1, (20, 0, 30, 10), dfT⟩

/-- Candidate table C of the merge counterexample: overlapping both A and B. -/
def tC : PyTable := ⟨1, (5, 0, 25, 10), dfT⟩

/-- Every branch of the final parse attempts yields a parseable string: the two
kept candidates are guarded by their own parse check and the fallback is the
empty-array text. -/
theorem finishClean_parses (c : List Char) : jsonParses (finishClean c) = true := by
  unfold finishClean
  dsimp only
  split_ifs with h1 h2
  · exact h1
  · exact h2
  · decide

/-- Case analysis of the simple refiner: every branch returns either the original
records or a parsed list whose length was checked against them. -/
theorem refineSimple_cases (llm : List Json) (camelot : List (List String))
    (resp : Except String String) :
    refine_with_camelot_reference_simple llm camelot resp = llm ∨
    (refine_with_camelot_reference_simple llm camelot resp).length = llm.length := by
  unfold refine_with_camelot_reference_simple
  split_ifs with h
  · exact Or.inl rfl
  · cases resp with
    | error e => exact Or.inl rfl
    | ok text =>
        dsimp only
        split
        case _ xs _ =>
          split_ifs with hlen hloop
          · exact Or.inr (by simpa using hlen)
          · exact Or.inl rfl
          · exact Or.inl rfl
        case _ => exact Or.inl rfl

/-- C2 (amended): for every input string the sanitizer ai_core.clean_and_fix_json
returns (it is a total function, never raising) a string that parses as JSON, and
it returns the empty-array text when no repair attempt parses; however its return
value is not always an array, since an input with no bracket or brace material is
kept verbatim when it happens to parse (see the counterexample). -/
theorem c2_sanitizer_total (s : String) :
    jsonParses (ai_core.clean_and_fix_json s) = true := by
  unfold ai_core.clean_and_fix_json
  dsimp only
  split_ifs with h
  · decide
  · exact finishClean_parses _

/-- C2 fails as stated: the input 42 is returned verbatim by the sanitizer and
parses as a JSON number, not as a JSON array. -/
theorem c2_counterexample :
    ai_core.clean_and_fix_json "42" = "42" ∧
    jsonParses "42" = true ∧ parsesAsJsonArray "42" = false :=
  ⟨by decide, by decide, by decide⟩

/-- C3 (amended): for every records list, reference table and model reply, the
simple refiner ai_functions.refine_with_camelot_reference_simple returns either a
list of exactly the input length or the original records unchanged; the claim is
false of ai_core.refine_with_camelot_reference, which omits the length check (see
the counterexample). -/
theorem c3_reconciliation_safety (llm : List Json) (camelot : List (List String))
    (resp : Except String String) :
    refine_with_camelot_reference_simple llm camelot resp = llm ∨
    (refine_with_camelot_reference_simple llm camelot resp).length = llm.length :=
  refineSimple_cases llm camelot resp

/-- C3 fails as stated on ai_core.refine_with_camelot_reference: a parsed reply of
one record against two input records is returned as the result, which is neither
of the input length nor the original list. -/
theorem c3_counterexample :
    (refine_with_camelot_reference llmC3 [["x"]] (Except.ok "[\x7b\"dt\":\"x\"\x7d]")).length = 1 ∧
    llmC3.length = 2 ∧
    refine_with_camelot_reference llmC3 [["x"]] (Except.ok "[\x7b\"dt\":\"x\"\x7d]") ≠ llmC3 := by
  refine ⟨by decide, by decide, fun h => absurd (congrArg List.length h) (by decide)⟩

/-- C7 (confirmed): the AI classification call is_transaction_table returns true
whenever the underlying call raises, and on success it returns true exactly when
the stripped upper-cased reply equals YES. -/
theorem c7_classifier_fail_open (resp : Except String String) :
    ai_core.is_transaction_table resp = true ↔
      ((∃ e, resp = .error e) ∨ (∃ s, resp = .ok s ∧ pyUpper (pyStrip s) = "YES")) := by
  cases resp with
  | error e => simp [ai_core.is_transaction_table]
  | ok s => simp [ai_core.is_transaction_table]

/-- C8 (amended): ai_core.detect_schema_from_first_table returns the default
schema whenever the call raises, the reply contains no bracketed array, or the
extracted array fails JSON validation; the claim is false of the duplicated
ai_functions variant, which returns the raw reply on success (see the
counterexample). -/
theorem c8_schema_fallback (resp : Except String String) :
    ((∃ e, resp = .error e) → ai_core.detect_schema_from_first_table resp = DEFAULT_SCHEMA) ∧
    (∀ s, resp = .ok s → extractBrack (pyStripL s.data) = none →
      ai_core.detect_schema_from_first_table resp = DEFAULT_SCHEMA) ∧
    (∀ s c, resp = .ok s → extractBrack (pyStripL s.data) = some c →
      jsonParses (String.mk (pyStripL c)) = false →
      ai_core.detect_schema_from_first_table resp = DEFAULT_SCHEMA) := by
  refine ⟨?_, ?_, ?_⟩
  · rintro ⟨e, rfl⟩
    rfl
  · rintro s rfl hext
    simp [ai_core.detect_schema_from_first_table, hext]
  · rintro s c rfl hext hval
    simp [ai_core.detect_schema_from_first_table, hext, hval]

/-- Witness for c8_schema_fallback: a plain prose reply with no bracketed array
yields the default schema. -/
theorem c8_schema_fallback_witness :
    ai_core.detect_schema_from_first_table (.ok "plain unparseable prose") = DEFAULT_SCHEMA :=
  (c8_schema_fallback (.ok "plain unparseable prose")).2.1 "plain unparseable prose" rfl (by decide)

/-- C8 fails as stated on the duplicated ai_functions variant: a prose reply with
no bracketed array is returned verbatim instead of the default schema. -/
theorem c8_counterexample :
    ai_functions.detect_schema_from_first_table (.ok "The table columns could not be determined") =
      "The table columns could not be determined" ∧
    "The table columns could not be determined" ≠ DEFAULT_SCHEMA :=
  ⟨by decide, by decide⟩

/-- C10 (confirmed): the candidate filter discards every DataFrame with fewer than
two rows, before any header, date or keyword signal is consulted. -/
theorem c10_single_row_discarded (df : List (List String)) (h : df.length < 2) :
    SimplifiedTableExtractor.is_transaction_table df = false := by
  unfold SimplifiedTableExtractor.is_transaction_table
  have : (dfEmpty df || decide (df.length < 2)) = true := by
    simp [h]
  rw [if_pos this]

/-- Witness for c10_single_row_discarded: a single-row grid full of header
keywords and a date is still discarded. -/
theorem c10_single_row_discarded_witness :
    SimplifiedTableExtractor.is_transaction_table
      [["Date", "Debit", "Credit", "Balance 01-01-2024"]] = false :=
  c10_single_row_discarded [["Date", "Debit", "Credit", "Balance 01-01-2024"]] (by decide)

/-- C6 (confirmed): two candidate boxes merge exactly when the area of their
intersection divided by the smaller of the two areas exceeds three tenths, the
merged box is the coordinate-wise min-max union, and the spec's scenario boxes
merge into (0, 0, 140, 140). -/
theorem c6_overlap_merge (b1 b2 : Box) :
    (boxes_overlap b1 b2 = true ↔
      interArea b1 b2 / min (boxArea b1) (boxArea b2) > 3 / 10) ∧
    merge_boxes b1 b2 =
      (min b1.1 b2.1, min b1.2.1 b2.2.1, max b1.2.2.1 b2.2.2.1, max b1.2.2.2 b2.2.2.2) ∧
    boxes_overlap (0, 0, 100, 100) (50, 50, 140, 140) = true ∧
    merge_boxes (0, 0, 100, 100) (50, 50, 140, 140) = ((0 : ℚ), (0 : ℚ), (140 : ℚ), (140 : ℚ)) := by
  refine ⟨?_, rfl, by with_unfolding_all decide, by with_unfolding_all decide⟩
  unfold boxes_overlap interArea boxArea
  dsimp only
  split_ifs with h
  · constructor
    · intro hf
      exact absurd hf (by simp)
    · intro hgt
      exfalso
      rcases h with h | h
      · have hx : min b1.2.2.1 b2.2.2.1 - max b1.1 b2.1 ≤ 0 := by linarith
        rw [max_eq_left hx, zero_mul, zero_div] at hgt
        linarith
      · have hy : min b1.2.2.2 b2.2.2.2 - max b1.2.1 b2.2.1 ≤ 0 := by linarith
        rw [max_eq_left hy, mul_zero, zero_div] at hgt
        linarith
  · push_neg at h
    obtain ⟨hx, hy⟩ := h
    rw [max_eq_right (by linarith : (0 : ℚ) ≤ min b1.2.2.1 b2.2.2.1 - max b1.1 b2.1),
        max_eq_right (by linarith : (0 : ℚ) ≤ min b1.2.2.2 b2.2.2.2 - max b1.2.1 b2.2.1)]
    exact decide_eq_true_iff

/-- C1 (amended): a reconciliation run whose correction is accepted (the result is
not the original records) returns a list of exactly the input length; the
continuity equation is only part of the model prompt and is never verified by the
code, so an accepted correction need not satisfy it (see the counterexample). -/
theorem c1_accepted_length (llm : List Json) (camelot : List (List String))
    (resp : Except String String)
    (h : refine_with_camelot_reference_simple llm camelot resp ≠ llm) :
    (refine_with_camelot_reference_simple llm camelot resp).length = llm.length := by
  rcases refineSimple_cases llm camelot resp with h1 | h1
  · exact absurd h1 h
  · exact h1

/-- Witness for c1_accepted_length: a one-record run whose dr value the reply
changes is accepted, and the accepted output has the input's length. -/
theorem c1_accepted_length_witness :
    (refine_with_camelot_reference_simple llmW1 [["r"]] respW1).length = llmW1.length :=
  c1_accepted_length llmW1 [["r"]] respW1 (fun h =>
    absurd (congrArg (fun l => recNum (l.headD Json.null) "dr") h)
      (by with_unfolding_all decide))

/-- C1 fails as stated: this reconciliation run is accepted (the result differs
from the original records and has their length) yet the accepted output violates
the ascending balance-continuity equation far beyond the 0.01 tolerance, which the
original records satisfied. -/
theorem c1_counterexample :
    refine_with_camelot_reference_simple llmC1 [["x"]] respC1 ≠ llmC1 ∧
    (refine_with_camelot_reference_simple llmC1 [["x"]] respC1).length = llmC1.length ∧
    balanceContinuityAsc (refine_with_camelot_reference_simple llmC1 [["x"]] respC1) (1 / 100)
      = false ∧
    balanceContinuityAsc llmC1 (1 / 100) = true := by
  refine ⟨fun h =>
      absurd (congrArg (fun l => recNum (l.getD 1 Json.null) "bal") h)
        (by with_unfolding_all decide),
    by with_unfolding_all decide, by with_unfolding_all decide,
    by with_unfolding_all decide⟩

/-- An element the predicate rejects survives dropWhile. -/
theorem mem_dropWhile_of_not {p : Char → Bool} {a : Char} :
    ∀ {l : List Char}, a ∈ l → p a = false → a ∈ l.dropWhile p := by
  intro l
  induction l with
  | nil => intro h _; cases h
  | cons c rest ih =>
      intro h hp
      rw [List.dropWhile_cons]
      split_ifs with hc
      · rcases List.mem_cons.mp h with rfl | h2
        · rw [hp] at hc; cases hc
        · exact ih h2 hp
      · exact h

/-- A list containing an element the predicate rejects does not drop to nil. -/
theorem dropWhile_ne_nil_of_witness {p : Char → Bool} {a : Char} {l : List Char}
    (h : a ∈ l) (hp : p a = false) : l.dropWhile p ≠ [] := by
  intro hnil
  have hm := mem_dropWhile_of_not h hp
  rw [hnil] at hm
  cases hm

/-- The head of a dropWhile result refutes the predicate. -/
theorem dropWhile_head_not {p : Char → Bool} :
    ∀ {l : List Char} {x : Char} {rest : List Char},
      l.dropWhile p = x :: rest → p x = false := by
  intro l
  induction l with
  | nil => intro x rest h; cases h
  | cons c cl ih =>
      intro x rest h
      rw [List.dropWhile_cons] at h
      split_ifs at h with hc
      · exact ih h
      · injection h with h1 _
        subst h1
        simpa using hc

/-- A successfully extracted bracketed array starts with the opening bracket. -/
theorem extractBrack_some {l c : List Char} (h : extractBrack l = some c) :
    ∃ r, c = '[' :: r := by
  have key : ∀ (m cc : List Char),
      (if (m.dropWhile (fun ch => !(ch == '['))).isEmpty then none
       else some (m.dropWhile (fun ch => !(ch == '[')))) = some cc →
      ∃ r, cc = '[' :: r := by
    intro m cc hm
    cases hd : m.dropWhile (fun ch => !(ch == '[')) with
    | nil => rw [hd] at hm; simp at hm
    | cons x rest =>
        rw [hd] at hm
        simp at hm
        have hx : x = '[' := by simpa using dropWhile_head_not hd
        exact ⟨rest, by rw [← hm, hx]⟩
  unfold extractBrack at h
  dsimp only at h
  exact key _ c h

/-- The schema ai_core.detect_schema_from_first_table returns is never the empty
string: either the nonempty default template, or a stripped extract that still
starts with its opening bracket. -/
theorem detect_schema_ne_empty (resp : Except String String) :
    ai_core.detect_schema_from_first_table resp ≠ "" := by
  cases resp with
  | error e => exact (by decide : DEFAULT_SCHEMA ≠ "")
  | ok content =>
      simp only [ai_core.detect_schema_from_first_table]
      split
      case _ c heq =>
        obtain ⟨r, rfl⟩ := extractBrack_some heq
        split_ifs with hval
        · intro hstr
          have hdata : pyStripL ('[' :: r) = [] := by
            have h2 := congrArg String.data hstr
            simpa using h2
          unfold pyStripL at hdata
          rw [List.reverse_eq_nil_iff] at hdata
          have hdrop : ('[' :: r).dropWhile pyWs = '[' :: r := by
            rw [List.dropWhile_cons]
            simp [pyWs]
          rw [hdrop] at hdata
          exact dropWhile_ne_nil_of_witness (a := '[') (by simp) (by decide) hdata
        · exact (by decide : DEFAULT_SCHEMA ≠ "")
      case _ heq => exact (by decide : DEFAULT_SCHEMA ≠ "")

/-- After the first transactional image has been found, the loop only appends the
already-fixed schema for each remaining image: the schema and the inference count
never change again. -/
theorem foldl_after_found (imgs : List (Bool × Except String String)) :
    ∀ (ro : Option String) (us : List String) (ic : Nat),
      ((imgs.foldl stepTable ⟨true, ro, us, ic⟩).used =
        us ++ imgs.map (fun _ => pyOrStr ro DEFAULT_SCHEMA)) ∧
      ((imgs.foldl stepTable ⟨true, ro, us, ic⟩).inferCalls = ic) := by
  induction imgs with
  | nil => intro ro us ic; simp
  | cons img rest ih =>
      intro ro us ic
      rw [List.foldl_cons]
      have hstep : stepTable ⟨true, ro, us, ic⟩ img =
          ⟨true, ro, us ++ [pyOrStr ro DEFAULT_SCHEMA], ic⟩ := by
        unfold stepTable
        simp
      rw [hstep]
      obtain ⟨h1, h2⟩ := ih ro (us ++ [pyOrStr ro DEFAULT_SCHEMA]) ic
      constructor
      · rw [h1]; simp [List.append_assoc]
      · rw [h2]

/-- The loop started in its initial not-found state infers exactly on the first
transactional image and uses exactly the specified schema schedule. -/
theorem processAux (imgs : List (Bool × Except String String)) :
    ∀ used0 calls0,
      ((imgs.foldl stepTable ⟨false, none, used0, calls0⟩).used =
        used0 ++ specSchemaSchedule imgs) ∧
      ((imgs.foldl stepTable ⟨false, none, used0, calls0⟩).inferCalls =
        calls0 + (if imgs.any (fun i => i.1) then 1 else 0)) := by
  induction imgs with
  | nil => intro u c; simp [specSchemaSchedule]
  | cons img rest ih =>
      intro u c
      obtain ⟨cls, resp⟩ := img
      rw [List.foldl_cons]
      cases cls with
      | true =>
          have hstep : stepTable ⟨false, none, u, c⟩ (true, resp) =
              ⟨true, some (ai_core.detect_schema_from_first_table resp),
               u ++ [ai_core.detect_schema_from_first_table resp], c + 1⟩ := by
            unfold stepTable
            simp [pyOrStr, detect_schema_ne_empty resp]
          rw [hstep]
          obtain ⟨h1, h2⟩ := foldl_after_found rest
            (some (ai_core.detect_schema_from_first_table resp))
            (u ++ [ai_core.detect_schema_from_first_table resp]) (c + 1)
          constructor
          · rw [h1]
            simp [specSchemaSchedule, pyOrStr, detect_schema_ne_empty resp,
                  List.append_assoc]
          · rw [h2]; simp
      | false =>
          have hstep : stepTable ⟨false, none, u, c⟩ (false, resp) =
              ⟨false, none, u ++ [DEFAULT_SCHEMA], c⟩ := by
            unfold stepTable
            simp [pyOrStr]
          rw [hstep]
          obtain ⟨h1, h2⟩ := ih (u ++ [DEFAULT_SCHEMA]) c
          constructor
          · rw [h1]; simp [specSchemaSchedule, List.append_assoc]
          · rw [h2,
              (by simp : (((false, resp) :: rest).any fun i => i.1) =
                (rest.any fun i => i.1))]

/-- C4 (confirmed): over a document run, the table loop uses exactly the specified
schema schedule (the default before any transactional classification, and from the
first transactional image on, the schema inferred from that image, unchanged for
every subsequent table), and schema inference is invoked exactly once when some
image classifies transactional and never otherwise, hence at most once. -/
theorem c4_schema_inference_once (imgs : List (Bool × Except String String)) :
    (processTables imgs).used = specSchemaSchedule imgs ∧
    (processTables imgs).inferCalls = (if imgs.any (fun i => i.1) then 1 else 0) ∧
    (processTables imgs).inferCalls ≤ 1 := by
  obtain ⟨h1, h2⟩ := processAux imgs [] 0
  refine ⟨by simpa using h1, by simpa using h2, ?_⟩
  have h3 : (processTables imgs).inferCalls =
      (if imgs.any (fun i => i.1) then 1 else 0) := by simpa using h2
  rw [h3]
  split_ifs <;> omega

/-- The overlap test is symmetric in its two boxes. -/
theorem boxes_overlap_comm (b1 b2 : Box) (th : ℚ) :
    boxes_overlap b1 b2 th = boxes_overlap b2 b1 th := by
  unfold boxes_overlap
  dsimp only
  rw [max_comm b2.1 b1.1, max_comm b2.2.1 b1.2.1, min_comm b2.2.2.1 b1.2.2.1,
      min_comm b2.2.2.2 b1.2.2.2,
      min_comm ((b2.2.2.1 - b2.1) * (b2.2.2.2 - b2.2.1))
        ((b1.2.2.1 - b1.1) * (b1.2.2.2 - b1.2.1))]

/-- A box that overlaps none of the tables absorbs nothing. -/
theorem absorb_no_overlap (b : Box) :
    ∀ ts : List PyTable, (∀ t ∈ ts, boxes_overlap b t.bbox = false) →
      absorb b ts = (b, ts) := by
  intro ts
  induction ts with
  | nil => intro _; rfl
  | cons t ts ih =>
      intro h
      unfold absorb
      rw [h t (List.mem_cons_self t ts),
          ih (fun x hx => h x (List.mem_cons_of_mem t hx))]
      simp

/-- On a pairwise non-overlapping page the absorbing pass is the identity. -/
theorem mergePass_noop :
    ∀ (l : List PyTable),
      List.Pairwise (fun a b => boxes_overlap a.bbox b.bbox = false) l →
      ∀ f, l.length ≤ f → mergePass f l = l
  | [], _, f, _ => by cases f <;> rfl
  | t :: ts, h, 0, hf => by simp at hf
  | t :: ts, h, Nat.succ f, hf => by
      obtain ⟨hhead, htail⟩ := List.pairwise_cons.mp h
      unfold mergePass
      rw [absorb_no_overlap t.bbox ts hhead]
      dsimp only
      rw [mergePass_noop ts htail f (by simpa using hf)]

/-- keysInOrder of the empty list is empty at any fuel. -/
theorem keysInOrder_nil : ∀ f, keysInOrder f [] = []
  | 0 => rfl
  | Nat.succ _ => rfl

/-- With all keys equal, the filter of the first-occurrence scan drops everything. -/
theorem filter_ne_nil_of_all_eq {p : Nat} :
    ∀ {ps : List Nat}, (∀ q ∈ ps, q = p) → ps.filter (fun q => !(q == p)) = [] := by
  intro ps h
  rw [List.filter_eq_nil_iff]
  intro q hq
  simp [h q hq]

/-- All candidates transactional, on one page and pairwise non-overlapping: the
merge stage returns its input unchanged. -/
theorem merge_eq_self (l : List PyTable) (p : Nat)
    (htx : ∀ t ∈ l, SimplifiedTableExtractor.is_transaction_table t.df = true)
    (hpage : ∀ t ∈ l, t.page = p)
    (hsep : List.Pairwise (fun a b => boxes_overlap a.bbox b.bbox = false) l) :
    merge_overlapping_tables l = l := by
  unfold merge_overlapping_tables
  dsimp only
  rw [List.filter_eq_self.mpr (fun t ht => by simp [htx t ht])]
  cases l with
  | nil => rfl
  | cons t ts =>
      have hmap : ∀ q ∈ (t :: ts).map (fun t => t.page), q = p := by
        intro q hq
        obtain ⟨x, hx, rfl⟩ := List.mem_map.mp hq
        exact hpage x hx
      have htp : t.page = p := hpage t (by simp)
      have hall : ∀ q ∈ ts.map (fun x => x.page), q = p := by
        intro q hq
        obtain ⟨x, hx, rfl⟩ := List.mem_map.mp hq
        exact hpage x (List.mem_cons_of_mem t hx)
      have hkeys : keysInOrder ((t :: ts).length + 1) ((t :: ts).map (fun t => t.page)) = [p] := by
        rw [List.map_cons, htp]
        unfold keysInOrder
        rw [filter_ne_nil_of_all_eq hall, keysInOrder_nil]
      rw [hkeys]
      simp only [joinMap, List.append_nil]
      rw [List.filter_eq_self.mpr (fun x hx => by simp [hpage x hx])]
      rw [mergePass_noop (t :: ts) hsep ((t :: ts).length + 1) (by omega)]

/-- C5 (amended): within a single page whose retained candidates are pairwise
non-overlapping, merging changes nothing, so a second application of the merge
yields the same boxes and reordering the candidates merely permutes the output
boxes. In general the claim fails: a single pass can leave overlapping boxes on a
page, making the merge neither idempotent nor order-independent (see the
counterexample). -/
theorem c5_merge_separated (l : List PyTable) (p : Nat)
    (htx : ∀ t ∈ l, SimplifiedTableExtractor.is_transaction_table t.df = true)
    (hpage : ∀ t ∈ l, t.page = p)
    (hsep : List.Pairwise (fun a b => boxes_overlap a.bbox b.bbox = false) l) :
    merge_overlapping_tables (merge_overlapping_tables l) = merge_overlapping_tables l ∧
    (∀ l', List.Perm l' l →
      List.Perm ((merge_overlapping_tables l').map (fun t => t.bbox))
        ((merge_overlapping_tables l).map (fun t => t.bbox))) := by
  have hsymm : Symmetric (fun a b : PyTable => boxes_overlap a.bbox b.bbox = false) := by
    intro a b hab
    rw [boxes_overlap_comm]
    exact hab
  have hself := merge_eq_self l p htx hpage hsep
  constructor
  · simp only [hself]
  · intro l2 hperm
    have hself2 := merge_eq_self l2 p
      (fun t ht => htx t (hperm.subset ht))
      (fun t ht => hpage t (hperm.subset ht))
      ((hperm.pairwise_iff (fun hab => hsymm hab)).mpr hsep)
    rw [hself, hself2]
    exact hperm.map _

/-- Witness for c5_merge_separated: two separated same-page transactional
candidates merge to themselves, so merging twice equals merging once. -/
theorem c5_merge_separated_witness :
    merge_overlapping_tables (merge_overlapping_tables [tA, tB]) =
      merge_overlapping_tables [tA, tB] :=
  (c5_merge_separated [tA, tB] 1 (by decide) (by decide)
    (by with_unfolding_all decide)).1

/-- C5 fails as stated: merging these three same-page transactional candidates
once leaves two boxes that still overlap, a second pass merges them into one
(so the box set shrinks), and presenting the candidates in a different order
already changes the box set of a single pass. -/
theorem c5_counterexample :
    ¬ List.Perm
        ((merge_overlapping_tables (merge_overlapping_tables [tA, tB, tC])).map
          (fun t => t.bbox))
        ((merge_overlapping_tables [tA, tB, tC]).map (fun t => t.bbox)) ∧
    ¬ List.Perm
        ((merge_overlapping_tables [tA, tC, tB]).map (fun t => t.bbox))
        ((merge_overlapping_tables [tA, tB, tC]).map (fun t => t.bbox)) := by
  constructor
  · intro h
    exact absurd h.length_eq (by with_unfolding_all decide)
  · intro h
    exact absurd h.length_eq (by with_unfolding_all decide)

/-- An Except value is ok exactly when it carries a value. -/
theorem except_isOk_iff {ε α : Type} (e : Except ε α) : e.isOk = true ↔ ∃ a, e = .ok a := by
  cases e <;> simp [Except.isOk, Except.toBool]

/-- On a well-formed record the expander's single step succeeds, and the display
record carries the defaulted float values and the W-to-Withdrawal type mapping. -/
theorem expandOne_wf (t : Json) (h : recWellFormed t = true) :
    ∃ r, expand_compact_json_one t = .ok r ∧
      jfield r "withdrawal_dr" = some (Json.num (floatValD t "dr")) ∧
      jfield r "deposit_cr" = some (Json.num (floatValD t "cr")) ∧
      jfield r "balance" = some (Json.num (floatValD t "bal")) ∧
      jfield r "transaction_type" =
        some (Json.str (if typeIsW t = true then "Withdrawal" else "Deposit")) := by
  cases t with
  | null => simp [recWellFormed] at h
  | bool b => simp [recWellFormed] at h
  | num q => simp [recWellFormed] at h
  | str s => simp [recWellFormed] at h
  | arr xs => simp [recWellFormed] at h
  | obj fs =>
      simp only [recWellFormed, Bool.and_eq_true, fieldFloatable] at h
      obtain ⟨⟨hdr, hcr⟩, hbal⟩ := h
      rw [except_isOk_iff] at hdr hcr hbal
      obtain ⟨qdr, hdr⟩ := hdr
      obtain ⟨qcr, hcr⟩ := hcr
      obtain ⟨qbal, hbal⟩ := hbal
      refine ⟨Json.obj
        [("date", pyGet fs "dt"),
         ("narration", pyGet fs "desc"),
         ("reference_number", pyGet fs "ref"),
         ("withdrawal_dr", Json.num qdr),
         ("deposit_cr", Json.num qcr),
         ("balance", Json.num qbal),
         ("transaction_type", Json.str
            (match jlookup fs "type" with
             | some (Json.str s) => if s = "W" then "Withdrawal" else "Deposit"
             | _ => "Deposit"))], ?_, ?_, ?_, ?_, ?_⟩
      · simp only [expand_compact_json_one]
        rw [hdr, hcr, hbal]
        rfl
      · simp [jfield, jlookup, floatValD, hdr]
      · simp [jfield, jlookup, floatValD, hcr]
      · simp [jfield, jlookup, floatValD, hbal]
      · have key : ∀ (o : Option Json),
            (match o with
             | some (Json.str s) => if s = "W" then "Withdrawal" else "Deposit"
             | _ => "Deposit") =
            (if (match o with
                 | some (Json.str s) => s == "W"
                 | _ => false) = true
             then "Withdrawal" else "Deposit") := by
          intro o
          rcases o with _ | v
          · simp
          · rcases v with _ | b | q | s | xs | f2
            · simp
            · simp
            · simp
            · by_cases hs : s = "W" <;> simp [hs]
            · simp
            · simp
        simp [jfield, jlookup, typeIsW, key (jlookup fs "type")]

/-- C9 (amended): on records whose numeric fields are absent or float()-accepted,
the expander is a pure total mapping: it succeeds, preserves the record count,
yields the same output on a repeated call, stores the defaulted float values, and
maps type W to Withdrawal and every other type value to Deposit. A malformed
numeric field is not coerced to zero: float() raises and the whole call fails
(see the counterexample). -/
theorem c9_expander (ts : List Json) (h : ∀ t ∈ ts, recWellFormed t = true) :
    ∃ out, expand_compact_json ts = .ok out ∧ out.length = ts.length ∧
      expand_compact_json ts = expand_compact_json ts ∧
      ∀ pr ∈ ts.zip out,
        jfield pr.2 "withdrawal_dr" = some (Json.num (floatValD pr.1 "dr")) ∧
        jfield pr.2 "deposit_cr" = some (Json.num (floatValD pr.1 "cr")) ∧
        jfield pr.2 "balance" = some (Json.num (floatValD pr.1 "bal")) ∧
        jfield pr.2 "transaction_type" =
          some (Json.str (if typeIsW pr.1 = true then "Withdrawal" else "Deposit")) := by
  induction ts with
  | nil => exact ⟨[], rfl, rfl, rfl, by simp⟩
  | cons t ts ih =>
      obtain ⟨r, hr, h1, h2, h3, h4⟩ := expandOne_wf t (h t (by simp))
      obtain ⟨out, hout, hlen, _, hall⟩ := ih (fun x hx => h x (List.mem_cons_of_mem t hx))
      refine ⟨r :: out, ?_, by simp [hlen], rfl, ?_⟩
      · show (t :: ts).mapM expand_compact_json_one = Except.ok (r :: out)
        rw [List.mapM_cons, hr]
        rw [show ts.mapM expand_compact_json_one = Except.ok out from hout]
        rfl
      · intro pr hpr
        rw [List.zip_cons_cons] at hpr
        rcases List.mem_cons.mp hpr with rfl | hpr2
        · exact ⟨h1, h2, h3, h4⟩
        · exact hall pr hpr2

/-- Witness for c9_expander: a record carrying only the type field W expands to a
single Withdrawal display record. -/
theorem c9_expander_witness :
    ∃ out, expand_compact_json [Json.obj [("type", Json.str "W")]] = .ok out ∧
      out.length = [Json.obj [("type", Json.str "W")]].length ∧
      expand_compact_json [Json.obj [("type", Json.str "W")]] =
        expand_compact_json [Json.obj [("type", Json.str "W")]] ∧
      ∀ pr ∈ [Json.obj [("type", Json.str "W")]].zip out,
        jfield pr.2 "withdrawal_dr" = some (Json.num (floatValD pr.1 "dr")) ∧
        jfield pr.2 "deposit_cr" = some (Json.num (floatValD pr.1 "cr")) ∧
        jfield pr.2 "balance" = some (Json.num (floatValD pr.1 "bal")) ∧
        jfield pr.2 "transaction_type" =
          some (Json.str (if typeIsW pr.1 = true then "Withdrawal" else "Deposit")) :=
  c9_expander [Json.obj [("type", Json.str "W")]] (by decide)

/-- C9 fails as stated: a malformed numeric dr field is not coerced to zero; the
expander propagates the ValueError float() raises, failing the whole call. -/
theorem c9_counterexample :
    expand_compact_json [Json.obj [("dt", Json.str "01-01-2024"), ("dr", Json.str "abc")]] =
      .error "ValueError" := by
  rfl
